import Mathlib

/-!
Verification of the filter/sort/aggregate engine of `padel_app.py`.

The engine is `filter_and_sort_data(df, filters, sort_by, sort_order)`
(lines 129-176 of the source) together with the summary-statistics block of
`main` (lines 284-302).  The dataframe is modelled as a `List Record`; each
pandas operation used by the source (`copy`, boolean-mask row selection,
`sort_values`, `Series.mean`) is modelled by a pure function on lists, and
the body of `filter_and_sort_data` is the composition of those steps in
source order.
-/

/-- One catalog row, per the CSV header
`name, overall, power, control, rebound, omgang, sweetspot, price`.
`price` cells may be empty (pandas `NaN`), hence `Option`; a `name` cell
read as `NaN` is also representable (`str.contains` is called with
`na=False`), hence `Option` as well.  Ratings are always-present integers. -/
structure Record where
  name : Option String
  overall : Int
  power : Int
  control : Int
  rebound : Int
  omgang : Int
  sweetspot : Int
  price : Option Int
deriving Repr, DecidableEq

/-- The `filters` dictionary built in `main` (lines 267-277).
`price_range` is `None` when every price in the dataset is missing
(lines 207-216), hence `Option`. -/
structure Filters where
  name_search : String
  overall_range : Int × Int
  price_range : Option (Int × Int)
  include_no_price : Bool
  power_range : Int × Int
  control_range : Int × Int
  rebound_range : Int × Int
  omgang_range : Int × Int
  sweetspot_range : Int × Int
deriving Repr, DecidableEq

/-- The `sort_by` selectbox options (line 259). -/
inductive SortBy where
  | overall | price | power | control | rebound | omgang | sweetspot | name
deriving Repr, DecidableEq

/-- Model of `df.copy()` (line 131): returns a new frame holding the same rows. -/
def dfCopy (df : List Record) : List Record := df

/-- One numeric range filter, the shape used for `overall` (lines 134-138)
and for each of the five attribute loops (lines 151-157): rows are kept by
the mask `lo <= value <= hi`, and the whole filter is skipped when the
range endpoints are equal. -/
def rangeStep (range : Int × Int) (value : Record → Int) (l : List Record) :
    List Record :=
  if range.1 ≠ range.2 then
    l.filter (fun r => decide (range.1 ≤ value r) && decide (value r ≤ range.2))
  else l

/-- Lines 134-138: the `overall` range filter. -/
def overallStep (filters : Filters) (l : List Record) : List Record :=
  rangeStep filters.overall_range (fun r => r.overall) l

/-- Line 140: the price branch is taken when `filters['price_range']` is
truthy (not `None`) and its endpoints differ. -/
def priceRangeActive (filters : Filters) : Bool :=
  match filters.price_range with
  | some pr => decide (pr.1 ≠ pr.2)
  | none => false

/-- The row mask of lines 142-145:
`(price >= lo) & (price <= hi) | (include_no_price & isna(price))`.
A pandas comparison of `NaN` with a number is `False`, so a missing price
contributes `False` to the range conjunct and passes only through the
`include_no_price & isna` disjunct. -/
def pricePassMask (filters : Filters) (r : Record) : Bool :=
  (match r.price, filters.price_range with
    | some p, some pr => decide (pr.1 ≤ p) && decide (p ≤ pr.2)
    | _, _ => false)
  || (filters.include_no_price && r.price.isNone)

/-- Lines 140-148: the price filter.  When the range branch is not taken
(range `None`, or equal endpoints) and `include_no_price` is false, rows
with a missing price are dropped (`~isna`, line 148); otherwise the step
keeps every row. -/
def priceStep (filters : Filters) (l : List Record) : List Record :=
  if priceRangeActive filters then
    l.filter (fun r => pricePassMask filters r)
  else if !filters.include_no_price then
    l.filter (fun r => r.price.isSome)
  else l

/-- Lines 150-157: the loop over `power, control, rebound, omgang,
sweetspot`, each an independent `rangeStep` applied in loop order. -/
def attrStep (filters : Filters) (l : List Record) : List Record :=
  rangeStep filters.sweetspot_range (fun r => r.sweetspot)
    (rangeStep filters.omgang_range (fun r => r.omgang)
      (rangeStep filters.rebound_range (fun r => r.rebound)
        (rangeStep filters.control_range (fun r => r.control)
          (rangeStep filters.power_range (fun r => r.power) l))))

/-- Helper for the name filter: case-insensitive containment of `pat` in
`s`, via lowercasing both sides and scanning for a sublist match. -/
def containsSub (p : List Char) : List Char → Bool
  | [] => p.isEmpty
  | c :: cs => p.isPrefixOf (c :: cs) || containsSub p cs

/-- Case-insensitive substring containment, `pat` inside `s`. -/
def strContainsCI (pat s : String) : Bool :=
  containsSub pat.toLower.toList s.toLower.toList

/-- Lines 159-163: the name filter
`filtered_df['name'].str.contains(filters['name_search'], case=False, na=False)`,
applied only when `name_search` is a non-empty (truthy) string.  `na=False`
makes a missing name fail the filter.  Modelled as case-insensitive literal
substring containment; note that the pandas call leaves `regex=True` at its
default, so on the real data path the search text is compiled as a regular
expression — the model and the source agree exactly on search strings free
of regex metacharacters, and the divergence on metacharacter patterns
(wildcard matching, exceptions on invalid patterns) is recorded against the
claims concerned with the name predicate. -/
def nameStep (filters : Filters) (l : List Record) : List Record :=
  if filters.name_search ≠ "" then
    l.filter (fun r =>
      match r.name with
      | some n => strContainsCI filters.name_search n
      | none => false)
  else l

/-- Stable insertion of `a` into `l`: `a` is placed before the first
element `b` with `le a b`, so among equal keys an inserted element
precedes the previously inserted (later-in-input) ones. -/
def insertSorted (le : α → α → Bool) (a : α) : List α → List α
  | [] => [a]
  | b :: bs => if le a b then a :: b :: bs else b :: insertSorted le a bs

/-- Stable comparison sort used to model the ordering produced by
`sort_values` on the rows whose key is present. -/
def insertionSort (le : α → α → Bool) : List α → List α
  | [] => []
  | a :: as => insertSorted le a (insertionSort le as)

/-- Model of `sort_values(col, ascending, na_position='last')` (pandas
`nargsort`): rows with a missing key are split off and appended after the
key-sorted rows with a present key, in both directions. -/
def sortOptionKey [LinearOrder κ] (key : α → Option κ) (asc : Bool)
    (l : List α) : List α :=
  let present := l.filter (fun r => (key r).isSome)
  let missing := l.filter (fun r => !(key r).isSome)
  let le : α → α → Bool := fun r s =>
    match key r, key s with
    | some a, some b => if asc then decide (a ≤ b) else decide (b ≤ a)
    | _, _ => true
  insertionSort le present ++ missing

/-- Lines 165-174: `price` is special-cased with an explicit
`na_position='last'` in both directions; every other column goes through
`sort_values(sort_by, ascending=(sort_order == 'asc'))`, whose
`na_position` default is also `'last'`. -/
def sortStep (sort_by : SortBy) (sort_order : String) (l : List Record) :
    List Record :=
  match sort_by with
  | .price =>
      if sort_order == "asc" then sortOptionKey (fun r => r.price) true l
      else sortOptionKey (fun r => r.price) false l
  | .overall => sortOptionKey (fun r => some r.overall) (sort_order == "asc") l
  | .power => sortOptionKey (fun r => some r.power) (sort_order == "asc") l
  | .control => sortOptionKey (fun r => some r.control) (sort_order == "asc") l
  | .rebound => sortOptionKey (fun r => some r.rebound) (sort_order == "asc") l
  | .omgang => sortOptionKey (fun r => some r.omgang) (sort_order == "asc") l
  | .sweetspot =>
      sortOptionKey (fun r => some r.sweetspot) (sort_order == "asc") l
  | .name => sortOptionKey (fun r => r.name) (sort_order == "asc") l

/-- The filtering half of `filter_and_sort_data` (lines 131-163), in source
order: copy, overall range, price, attribute loop, name. -/
def applyFilters (filters : Filters) (df : List Record) : List Record :=
  nameStep filters
    (attrStep filters (priceStep filters (overallStep filters (dfCopy df))))

/-- The engine `filter_and_sort_data(df, filters, sort_by, sort_order)`
(lines 129-176). -/
def filter_and_sort_data (df : List Record) (filters : Filters)
    (sort_by : SortBy) (sort_order : String) : List Record :=
  sortStep sort_by sort_order (applyFilters filters df)

/-- Row A of the three-row scenario table: overall 8, price 100.  The five
attributes not mentioned by the scenario are constantly 0 across the table,
so their full observed bounds are the degenerate range `(0, 0)`. -/
def recA : Record := ⟨some "A", 8, 0, 0, 0, 0, 0, some 100⟩

/-- Row B of the scenario table: overall 6, price missing. -/
def recB : Record := ⟨some "B", 6, 0, 0, 0, 0, 0, none⟩

/-- Row C of the scenario table: overall 8, price 50. -/
def recC : Record := ⟨some "C", 8, 0, 0, 0, 0, 0, some 50⟩

/-- The scenario table `[A, B, C]`. -/
def scenarioTable : List Record := [recA, recB, recC]

/-- The scenario filter spec: overall range narrowed to `[8, 8]`, no price
range, `include_no_price` true, every other range at its (degenerate) full
observed bounds, empty name search. -/
def scenarioFilters : Filters :=
  ⟨"", (8, 8), none, true, (0, 0), (0, 0), (0, 0), (0, 0), (0, 0)⟩

/-- A filter spec for the scenario table in which every range equals the
full observed bounds of its column (`overall` 6..8, present prices
50..100, the constant attributes `(0, 0)`), with `include_no_price` true
and an empty name search. -/
def fullBoundsFilters : Filters :=
  ⟨"", (6, 8), some (50, 100), true, (0, 0), (0, 0), (0, 0), (0, 0), (0, 0)⟩

/-- Spec-side hypothesis used for the no-op-filter theorem: whenever a
price range is supplied, it covers every present price of the row. -/
def priceWithinBounds (filters : Filters) (r : Record) : Bool :=
  match filters.price_range, r.price with
  | some pr, some p => decide (pr.1 ≤ p) && decide (p ≤ pr.2)
  | _, _ => true

/-- A filter spec supplying the non-degenerate price range `[40, 60]`,
with every other constraint inactive. -/
def priceTestFilters : Filters :=
  ⟨"", (0, 0), some (40, 60), true, (0, 0), (0, 0), (0, 0), (0, 0), (0, 0)⟩

/-- A filter spec supplying the degenerate price range `[5, 5]` (which
does not equal the scenario table's observed price bounds 50..100) with
`include_no_price` false, every other constraint inactive. -/
def degenerateFilters : Filters :=
  ⟨"", (0, 0), some (5, 5), false, (0, 0), (0, 0), (0, 0), (0, 0), (0, 0)⟩

/-- A filter spec whose overall range `[1, 2]` matches no scenario row, so
the filtered result is empty. -/
def emptyResultFilters : Filters :=
  ⟨"", (1, 2), none, true, (0, 0), (0, 0), (0, 0), (0, 0), (0, 0)⟩

/-- Whether a row's value on the sort column is present: only `price` and
`name` can be missing; the rating columns are always present. -/
def sortKeyPresent (sort_by : SortBy) (r : Record) : Bool :=
  match sort_by with
  | .price => r.price.isSome
  | .name => r.name.isSome
  | _ => true

/-- The body of `filter_and_sort_data` with the table value threaded
explicitly: line 131 copies `df` into the local `filtered_df`, and every
subsequent operation (boolean-mask row selection, `sort_values` without
`inplace`) returns a new frame assigned back to `filtered_df`; no
statement of the body assigns to `df` or mutates a frame in place.  The
second component is the value the caller's table holds after the call. -/
def filter_and_sort_run (df : List Record) (filters : Filters)
    (sort_by : SortBy) (sort_order : String) :
    List Record × List Record :=
  let filtered_df := dfCopy df
  let filtered_df := overallStep filters filtered_df
  let filtered_df := priceStep filters filtered_df
  let filtered_df := attrStep filters filtered_df
  let filtered_df := nameStep filters filtered_df
  let filtered_df := sortStep sort_by sort_order filtered_df
  (filtered_df, df)

/-- The present prices of the rows, in order: `filtered_df['price'].dropna()`. -/
def presentPrices (l : List Record) : List Int :=
  l.filterMap (fun r => r.price)

/-- Model of `filtered_df['price'].mean()` (line 298): pandas `Series.mean` skips
`NaN` entries (`skipna=True` default) and yields `NaN` — modelled as
`none` — when no value remains. -/
def avg_price (l : List Record) : Option Rat :=
  let ps := presentPrices l
  if ps.isEmpty then none
  else some ((ps.map (fun p => (p : Rat))).sum / (ps.length : Rat))

/-- What the average-price metric widget shows: a numeric value or the
literal `"N/A"` placeholder. -/
inductive AvgMetric where
  | value (v : Rat)
  | notApplicable
deriving Repr, DecidableEq

/-- Lines 296-302 of `main`: the `Avg Price` metric is rendered only when
`shown_rackets > 0`; inside that branch it shows the mean when the mean is
not `NaN` and the string `"N/A"` otherwise.  When the filtered result is
empty, no metric is rendered at all (`none`). -/
def renderAvgMetric (shown : List Record) : Option AvgMetric :=
  if 0 < shown.length then
    match avg_price shown with
    | some v => some (AvgMetric.value v)
    | none => some AvgMetric.notApplicable
  else none

/-- A `rangeStep` whose range covers every value occurring in the list
keeps the list unchanged, whether the guard skips it or the mask passes
every row. -/
theorem rangeStep_eq_self (range : Int × Int) (value : Record → Int)
    (l : List Record)
    (h : ∀ r ∈ l, range.1 ≤ value r ∧ value r ≤ range.2) :
    rangeStep range value l = l := by
  unfold rangeStep
  split
  · exact List.filter_eq_self.mpr (fun r hr => by
      simp only [Bool.and_eq_true, decide_eq_true_eq]
      exact h r hr)
  · rfl

/-- With `include_no_price` true and any supplied price range covering all
present prices, the price step keeps the list unchanged. -/
theorem priceStep_eq_self (filters : Filters) (l : List Record)
    (hinc : filters.include_no_price = true)
    (h : ∀ r ∈ l, priceWithinBounds filters r = true) :
    priceStep filters l = l := by
  unfold priceStep
  split
  case isTrue hact =>
    apply List.filter_eq_self.mpr
    intro r hr
    have hw := h r hr
    rcases hpr : filters.price_range with _ | pr
    · rw [priceRangeActive, hpr] at hact
      exact absurd hact (by simp)
    · rcases hp : r.price with _ | p
      · simp [pricePassMask, hpr, hp, hinc]
      · have hw2 : (decide (pr.1 ≤ p) && decide (p ≤ pr.2)) = true := by
          rw [priceWithinBounds, hpr, hp] at hw
          exact hw
        simp only [Bool.and_eq_true, decide_eq_true_eq] at hw2
        simp [pricePassMask, hpr, hp, hw2.1, hw2.2]
  case isFalse hact =>
    simp [hinc]

/-- The five-attribute loop keeps the list unchanged when each range covers
every value of its column occurring in the list. -/
theorem attrStep_eq_self (filters : Filters) (l : List Record)
    (hpw : ∀ r ∈ l, filters.power_range.1 ≤ r.power ∧
      r.power ≤ filters.power_range.2)
    (hct : ∀ r ∈ l, filters.control_range.1 ≤ r.control ∧
      r.control ≤ filters.control_range.2)
    (hrb : ∀ r ∈ l, filters.rebound_range.1 ≤ r.rebound ∧
      r.rebound ≤ filters.rebound_range.2)
    (hom : ∀ r ∈ l, filters.omgang_range.1 ≤ r.omgang ∧
      r.omgang ≤ filters.omgang_range.2)
    (hsw : ∀ r ∈ l, filters.sweetspot_range.1 ≤ r.sweetspot ∧
      r.sweetspot ≤ filters.sweetspot_range.2) :
    attrStep filters l = l := by
  unfold attrStep
  rw [rangeStep_eq_self _ _ _ hpw, rangeStep_eq_self _ _ _ hct,
    rangeStep_eq_self _ _ _ hrb, rangeStep_eq_self _ _ _ hom,
    rangeStep_eq_self _ _ _ hsw]

/-- An empty (falsy) `name_search` skips the name filter. -/
theorem nameStep_eq_self (filters : Filters) (l : List Record)
    (h : filters.name_search = "") : nameStep filters l = l := by
  simp [nameStep, h]

/-- C1 counterexample: on the scenario table with the overall range
narrowed to `[8, 8]`, `include_no_price` true, no price range, empty name
search and price-descending sort, the engine does NOT return `[A, C]`:
line 134 guards the overall filter with `min != max`, so the degenerate
range `[8, 8]` skips the filter entirely and B (overall 6) survives. -/
theorem scenario_narrowed_overall_ne_spec :
    filter_and_sort_data scenarioTable scenarioFilters .price "desc"
      ≠ [recA, recC] := by decide

/-- C1 amended: the same query returns `[A, C, B]` — a degenerate range
(min = max) is treated by the engine as a no-op regardless of whether it
equals the full observed bounds, so B is not excluded; sorting by price
descending orders A (100) before C (50) and places the missing-price row
B last. -/
theorem scenario_narrowed_overall_result :
    filter_and_sort_data scenarioTable scenarioFilters .price "desc"
      = [recA, recC, recB] := by decide

/-- C3: when every numeric range covers all observed values of its column
(in particular when it equals the full observed dataset bounds), any
supplied price range covers every present price, `include_no_price` is
true and the name search is empty, the filtering pipeline returns the full
table in its original order — the conjunction of no-ops is the identity
filter. -/
theorem applyFilters_noop_identity (df : List Record) (filters : Filters)
    (hov : ∀ r ∈ df, filters.overall_range.1 ≤ r.overall ∧
      r.overall ≤ filters.overall_range.2)
    (hpr : ∀ r ∈ df, priceWithinBounds filters r = true)
    (hinc : filters.include_no_price = true)
    (hpw : ∀ r ∈ df, filters.power_range.1 ≤ r.power ∧
      r.power ≤ filters.power_range.2)
    (hct : ∀ r ∈ df, filters.control_range.1 ≤ r.control ∧
      r.control ≤ filters.control_range.2)
    (hrb : ∀ r ∈ df, filters.rebound_range.1 ≤ r.rebound ∧
      r.rebound ≤ filters.rebound_range.2)
    (hom : ∀ r ∈ df, filters.omgang_range.1 ≤ r.omgang ∧
      r.omgang ≤ filters.omgang_range.2)
    (hsw : ∀ r ∈ df, filters.sweetspot_range.1 ≤ r.sweetspot ∧
      r.sweetspot ≤ filters.sweetspot_range.2)
    (hns : filters.name_search = "") :
    applyFilters filters df = df := by
  unfold applyFilters dfCopy overallStep
  rw [rangeStep_eq_self _ _ _ hov, priceStep_eq_self _ _ hinc hpr,
    attrStep_eq_self _ _ hpw hct hrb hom hsw, nameStep_eq_self _ _ hns]

/-- C3 witness: on the scenario table, the filter spec whose ranges equal
the full observed bounds of each column is the identity filter. -/
theorem applyFilters_noop_identity_witness :
    applyFilters fullBoundsFilters scenarioTable = scenarioTable :=
  applyFilters_noop_identity scenarioTable fullBoundsFilters (by decide)
    (by decide) rfl (by decide) (by decide) (by decide) (by decide)
    (by decide) rfl

/-- C4: under a supplied non-degenerate price range `[lo, hi]`, the price
step filters by `pricePassMask`, and that mask passes a row with a missing
price exactly when `include_no_price` is true (whatever the bounds), and a
row with a present price `p` exactly when `lo ≤ p ≤ hi`. -/
theorem priceStep_nondegenerate_pred (filters : Filters) (lo hi : Int)
    (l : List Record) (hpr : filters.price_range = some (lo, hi))
    (hne : lo ≠ hi) :
    priceStep filters l = l.filter (fun r => pricePassMask filters r)
    ∧ ∀ r : Record, (pricePassMask filters r = true ↔
        match r.price with
        | some p => lo ≤ p ∧ p ≤ hi
        | none => filters.include_no_price = true) := by
  have hact : priceRangeActive filters = true := by
    simp [priceRangeActive, hpr, hne]
  refine ⟨by simp [priceStep, hact], fun r => ?_⟩
  rcases hp : r.price with _ | p
  · simp [pricePassMask, hpr, hp]
  · simp [pricePassMask, hpr, hp]

/-- C4 witness: the price predicate under the non-degenerate range
`[40, 60]` on the scenario table. -/
theorem priceStep_nondegenerate_pred_witness :
    priceStep priceTestFilters scenarioTable
      = scenarioTable.filter (fun r => pricePassMask priceTestFilters r)
    ∧ ∀ r : Record, (pricePassMask priceTestFilters r = true ↔
        match r.price with
        | some p => (40 : Int) ≤ p ∧ p ≤ 60
        | none => priceTestFilters.include_no_price = true) :=
  priceStep_nondegenerate_pred priceTestFilters 40 60 scenarioTable rfl
    (by decide)

/-- C10: a supplied price range with equal endpoints and
`include_no_price` false falls through to the `dropna` branch (line 148):
exactly the missing-price rows are excluded, and present prices face no
numeric constraint — even when the degenerate range does not equal the
dataset's observed price bounds. -/
theorem priceStep_degenerate_dropna (filters : Filters) (lo : Int)
    (l : List Record) (hpr : filters.price_range = some (lo, lo))
    (hinc : filters.include_no_price = false) :
    priceStep filters l = l.filter (fun r => r.price.isSome) := by
  have hact : priceRangeActive filters = false := by
    simp [priceRangeActive, hpr]
  simp [priceStep, hact, hinc]

/-- C10 witness: the degenerate range `[5, 5]` (far from the observed
bounds 50..100) with `include_no_price` false drops exactly the
missing-price row B; A (price 100, outside `[5, 5]`) is kept. -/
theorem priceStep_degenerate_dropna_witness :
    priceStep degenerateFilters scenarioTable
      = scenarioTable.filter (fun r => r.price.isSome) :=
  priceStep_degenerate_dropna degenerateFilters 5 scenarioTable rfl rfl

/-- Membership after a stable insertion: the inserted element plus the old
ones. -/
theorem mem_insertSorted (le : α → α → Bool) (a b : α) (l : List α) :
    b ∈ insertSorted le a l ↔ b = a ∨ b ∈ l := by
  induction l with
  | nil => simp [insertSorted]
  | cons c cs ih =>
    unfold insertSorted
    split
    · simp [List.mem_cons]
    · simp only [List.mem_cons, ih]
      tauto

/-- The function `insertionSort` permutes its input: membership is preserved. -/
theorem mem_insertionSort (le : α → α → Bool) (a : α) (l : List α) :
    a ∈ insertionSort le l ↔ a ∈ l := by
  induction l with
  | nil => simp [insertionSort]
  | cons b bs ih =>
    simp [insertionSort, mem_insertSorted, ih]

/-- The output of `sortOptionKey` splits as rows with a present key
followed by rows with a missing key. -/
theorem sortOptionKey_split [LinearOrder κ] (key : α → Option κ)
    (asc : Bool) (l : List α) :
    ∃ xs ys, sortOptionKey key asc l = xs ++ ys
      ∧ (∀ r ∈ xs, (key r).isSome = true)
      ∧ (∀ r ∈ ys, (key r).isSome = false) := by
  refine ⟨insertionSort (fun r s =>
      match key r, key s with
      | some a, some b => if asc then decide (a ≤ b) else decide (b ≤ a)
      | _, _ => true) (l.filter (fun r => (key r).isSome)),
    l.filter (fun r => !(key r).isSome), rfl, ?_, ?_⟩
  · intro r hr
    rw [mem_insertionSort] at hr
    exact (List.mem_filter.mp hr).2
  · intro r hr
    have h := (List.mem_filter.mp hr).2
    simpa using h

/-- Lemma `sortOptionKey_split`, restated through `sortKeyPresent` for a sort
column whose key function matches it. -/
theorem sortOptionKey_present_split [LinearOrder κ]
    (key : Record → Option κ) (asc : Bool) (l : List Record) (sb : SortBy)
    (hk : ∀ r, sortKeyPresent sb r = (key r).isSome) :
    ∃ xs ys, sortOptionKey key asc l = xs ++ ys
      ∧ (∀ r ∈ xs, sortKeyPresent sb r = true)
      ∧ (∀ r ∈ ys, sortKeyPresent sb r = false) := by
  obtain ⟨xs, ys, h, hx, hy⟩ := sortOptionKey_split key asc l
  exact ⟨xs, ys, h, fun r hr => by rw [hk]; exact hx r hr,
    fun r hr => by rw [hk]; exact hy r hr⟩

/-- C5: for every table, filter spec, sort column and direction string,
the query result consists of the rows with a present sort-key value
followed by the rows with a missing one — missing values are placed at the
end in both directions, never at the front. -/
theorem missing_sort_keys_placed_last (df : List Record) (filters : Filters)
    (sort_by : SortBy) (sort_order : String) :
    ∃ xs ys, filter_and_sort_data df filters sort_by sort_order = xs ++ ys
      ∧ (∀ r ∈ xs, sortKeyPresent sort_by r = true)
      ∧ (∀ r ∈ ys, sortKeyPresent sort_by r = false) := by
  unfold filter_and_sort_data
  cases sort_by with
  | price =>
    by_cases h : (sort_order == "asc") = true
    · have hs := sortOptionKey_present_split (fun r => r.price) true
        (applyFilters filters df) .price (fun r => rfl)
      simpa [sortStep, h] using hs
    · have hs := sortOptionKey_present_split (fun r => r.price) false
        (applyFilters filters df) .price (fun r => rfl)
      simpa [sortStep, h] using hs
  | overall =>
    exact sortOptionKey_present_split (fun r => some r.overall) _
      (applyFilters filters df) .overall (fun r => rfl)
  | power =>
    exact sortOptionKey_present_split (fun r => some r.power) _
      (applyFilters filters df) .power (fun r => rfl)
  | control =>
    exact sortOptionKey_present_split (fun r => some r.control) _
      (applyFilters filters df) .control (fun r => rfl)
  | rebound =>
    exact sortOptionKey_present_split (fun r => some r.rebound) _
      (applyFilters filters df) .rebound (fun r => rfl)
  | omgang =>
    exact sortOptionKey_present_split (fun r => some r.omgang) _
      (applyFilters filters df) .omgang (fun r => rfl)
  | sweetspot =>
    exact sortOptionKey_present_split (fun r => some r.sweetspot) _
      (applyFilters filters df) .sweetspot (fun r => rfl)
  | name =>
    exact sortOptionKey_present_split (fun r => r.name) _
      (applyFilters filters df) .name (fun r => rfl)

/-- C5 at a concrete input: price-ascending over the scenario table splits
into present-price rows followed by missing-price rows. -/
theorem missing_sort_keys_placed_last_witness :
    ∃ xs ys,
      filter_and_sort_data scenarioTable scenarioFilters .price "asc"
        = xs ++ ys
      ∧ (∀ r ∈ xs, sortKeyPresent .price r = true)
      ∧ (∀ r ∈ ys, sortKeyPresent .price r = false) :=
  missing_sort_keys_placed_last scenarioTable scenarioFilters .price "asc"

/-- C9: the table value after a call to the engine is the value it held
before — no statement of the body assigns to `df` or operates in place —
and the first component is the derived result the engine returns. -/
theorem table_unchanged_by_query (df : List Record) (filters : Filters)
    (sort_by : SortBy) (sort_order : String) :
    (filter_and_sort_run df filters sort_by sort_order).2 = df
    ∧ (filter_and_sort_run df filters sort_by sort_order).1
      = filter_and_sort_data df filters sort_by sort_order :=
  ⟨rfl, rfl⟩

/-- C9 at a concrete input. -/
theorem table_unchanged_by_query_witness :
    (filter_and_sort_run scenarioTable scenarioFilters .overall "desc").2
      = scenarioTable
    ∧ (filter_and_sort_run scenarioTable scenarioFilters .overall "desc").1
      = filter_and_sort_data scenarioTable scenarioFilters .overall "desc" :=
  table_unchanged_by_query scenarioTable scenarioFilters .overall "desc"

/-- C8 counterexample: when the filtered result is empty — here the
overall range `[1, 2]` matches no scenario row — the source renders no
average-price metric at all (the `shown_rackets > 0` guard of lines
296-302 has no else-branch), not the claimed `"N/A"` placeholder. -/
theorem avg_metric_empty_result_not_na :
    renderAvgMetric
        (filter_and_sort_data scenarioTable emptyResultFilters .overall
          "desc") = none
    ∧ renderAvgMetric
        (filter_and_sort_data scenarioTable emptyResultFilters .overall
          "desc") ≠ some AvgMetric.notApplicable := by
  exact ⟨by decide, by decide⟩

/-- C8 amended: `avg_price` is the arithmetic mean of the present prices
among the filtered rows and is undefined (`none`) exactly when no present
price remains; over a non-empty result whose prices are all missing the
metric renders `"N/A"`; over an empty result no metric is rendered at all;
in neither undefined case is a numeric (in particular zero) value shown,
and nothing errors. -/
theorem avg_price_spec (l : List Record) :
    (presentPrices l ≠ [] →
      avg_price l
        = some (((presentPrices l).map (fun p => (p : Rat))).sum
            / ((presentPrices l).length : Rat)))
    ∧ (presentPrices l = [] → avg_price l = none)
    ∧ (0 < l.length → presentPrices l = [] →
        renderAvgMetric l = some AvgMetric.notApplicable)
    ∧ (l = [] → renderAvgMetric l = none) := by
  refine ⟨?_, ?_, ?_, ?_⟩
  · intro h
    simp [avg_price, h]
  · intro h
    simp [avg_price, h]
  · intro hlen h
    simp [renderAvgMetric, avg_price, h, hlen]
  · intro h
    subst h
    rfl

/-- C8 witness: a row with a present price yields the mean; the non-empty
all-missing table `[B]` renders `"N/A"`; the empty table renders no
metric. -/
theorem avg_price_spec_witness :
    avg_price [recA]
      = some (((presentPrices [recA]).map (fun p => (p : Rat))).sum
          / ((presentPrices [recA]).length : Rat))
    ∧ renderAvgMetric [recB] = some AvgMetric.notApplicable
    ∧ renderAvgMetric [] = none :=
  ⟨(avg_price_spec [recA]).1 (by decide),
    (avg_price_spec [recB]).2.2.1 (by decide) rfl,
    (avg_price_spec []).2.2.2 rfl⟩
